import Mathlib

/-!
Verification of the grid extraction and normalization engine of
`nc_parse_reverce.py` (function `parse_nc_file`).

The embedding is a shallow one:

* A cell value of an input array is modelled by `NC.V`: a finite float is a
  rational number, `nan` is the IEEE NaN, and `bad` is a non-numeric object on
  which Python `float(...)` raises.
* A numpy array of rank 1 or 2 is `NC.Nd`: a list, or a rectangular array
  `NC.Arr2` with explicit `rows`/`cols` and a total index function (the engine
  only ever inspects the first two dimensions of any array).  Out-of-bounds
  indexing and `shape[1]` of a 1-D array are modelled as errors, matching the
  Python `IndexError`.
* A netCDF variable (`NC.Var`) carries its name, dimension-name list,
  `long_name`/`units`/`_FillValue`/`missing_value` attributes and its raw data
  array; a file (`NC.NCFile`) carries the ordered variable catalog, the
  ordered dimension list and the global attributes.
* Exceptions are modelled with `Except`: `parse_nc_fileE` distinguishes the
  two explicit `return None` paths of the source (axes not found, no data
  variable) from the blanket `except Exception` handler (`PErr.exn`), and the
  public interface `parse_nc_file` collapses every error to `none`, exactly as
  the Python function returns `None` on every failure path.
* `np.min`/`np.max` over a coordinate array error on an empty array (the numpy
  `ValueError`) and on arrays holding non-numeric objects; they propagate NaN.

Lowercasing is performed character-wise on the underlying character list
(`NC.lowerName`), which agrees with Python `str.lower()` on ASCII names.
-/

deriving instance DecidableEq for Except

namespace NC

/-- A Python value stored in an array cell: a finite float (`num`), the IEEE
NaN (`nan`), or a non-numeric object on which `float(...)` raises (`bad`). -/
inductive V where
  | num (q : ℚ)
  | nan
  | bad
deriving DecidableEq, Repr

/-- A rectangular 2-D array with explicit shape; `get` is meaningful on
`i < rows`, `j < cols`. -/
structure Arr2 (α : Type) where
  rows : Nat
  cols : Nat
  get : Nat → Nat → α

/-- A numpy array of rank 1 or rank 2 (the engine only inspects the first two
dimensions of any array it touches). -/
inductive Nd (α : Type) where
  | one (xs : List α)
  | two (a : Arr2 α)

/-- Number of dimensions (`len(x.shape)`). -/
def Nd.ndim : Nd α → Nat
  | .one _ => 1
  | .two _ => 2

/-- `x.shape[0]`; defined for rank ≥ 1, so it never raises here. -/
def Nd.shape0 : Nd α → Nat
  | .one xs => xs.length
  | .two a => a.rows

/-- `x.shape[1]`; raises `IndexError` (modelled as `Except.error`) on a 1-D
array. -/
def Nd.shape1? : Nd α → Except Unit Nat
  | .one _ => .error ()
  | .two a => .ok a.cols

/-- Checked 2-D indexing `a[i, j]`; out of bounds raises `IndexError`. -/
def Arr2.idx? (a : Arr2 α) (i j : Nat) : Except Unit α :=
  if i < a.rows ∧ j < a.cols then .ok (a.get i j) else .error ()

/-- `x[i, j]` on an array of unknown rank: a 1-D array raises
(`too many indices`), a 2-D array does checked indexing. -/
def Nd.get2? : Nd α → Nat → Nat → Except Unit α
  | .one _, _, _ => .error ()
  | .two a, i, j => a.idx? i j

/-- Cell-wise map, preserving shape (used for `np.where` / mask replacement). -/
def Nd.map (f : α → β) : Nd α → Nd β
  | .one xs => .one (xs.map f)
  | .two a => .two ⟨a.rows, a.cols, fun i j => f (a.get i j)⟩

/-- Python `float(v)`: identity on floats (finite or NaN), raises on a
non-numeric object. -/
def pyFloat : V → Except Unit V
  | .num q => .ok (.num q)
  | .nan => .ok .nan
  | .bad => .error ()

/-- `np.isnan` on a float. -/
def V.isNanB : V → Bool
  | .nan => true
  | _ => false

/-- numpy `==` comparison against a sentinel, as used by `np.ma.masked_equal`:
two finite floats compare by value; NaN compares equal to nothing. -/
def veq : V → V → Bool
  | .num a, .num b => a == b
  | _, _ => false

/-- A netCDF variable: name, dimension names, the attributes the engine reads,
and its raw data array. -/
structure Var where
  name : String
  dims : List String
  long_name : Option String
  units : Option String
  fillValue : Option V
  missingValue : Option V
  data : Nd V

/-- An opened netCDF file: ordered variable catalog, ordered dimension list
(name and size) and global attributes. -/
structure NCFile where
  filename : String
  vars : List Var
  dimensions : List (String × Nat)
  globalAttrs : List (String × String)

/-! ## Variable Resolver (source lines 58–89) -/

/-- ASCII lowercasing of a name, character by character (Python `str.lower()`
on the ASCII names the resolver compares). -/
def lowerName (s : String) : List Char := s.data.map Char.toLower

/-- `['lat', 'latitude', 'y', 'Y', 'LAT', 'LATITUDE']`, lowercased (membership
tests in the source lowercase this list before comparing). -/
def latAliases : List (List Char) := [lowerName "lat", lowerName "latitude", lowerName "y"]

/-- `['lon', 'longitude', 'x', 'X', 'LON', 'LONGITUDE']`, lowercased. -/
def lonAliases : List (List Char) := [lowerName "lon", lowerName "longitude", lowerName "x"]

/-- `pat` occurs as a prefix of `s` (helper for substring containment). -/
def listIsPre : List Char → List Char → Bool
  | [], _ => true
  | _ :: _, [] => false
  | a :: as, b :: bs => a == b && listIsPre as bs

/-- `pat` occurs as a contiguous substring of `s` (Python `pat in s`). -/
def containsSub (pat s : List Char) : Bool :=
  match s with
  | [] => listIsPre pat []
  | _ :: rest => listIsPre pat s || containsSub pat rest

/-- `any(name in long_name for name in ['lat', 'latitude'])` on the lowercased
display name. -/
def lnLat (ln : String) : Bool :=
  containsSub (lowerName "lat") (lowerName ln) || containsSub (lowerName "latitude") (lowerName ln)

/-- `any(name in long_name for name in ['lon', 'longitude'])` on the lowercased
display name. -/
def lnLon (ln : String) : Bool :=
  containsSub (lowerName "lon") (lowerName ln) || containsSub (lowerName "longitude") (lowerName ln)

/-- One iteration of the variable scan: a variable with a declared `long_name`
is classified by keyword containment (latitude first), otherwise its own name
is compared against the alias lists; a match overwrites the accumulator. -/
def varStep (acc : Option String × Option String) (v : Var) : Option String × Option String :=
  match v.long_name with
  | some ln =>
      if lnLat ln then (some v.name, acc.2)
      else if lnLon ln then (acc.1, some v.name)
      else acc
  | none =>
      if latAliases.contains (lowerName v.name) then (some v.name, acc.2)
      else if lonAliases.contains (lowerName v.name) then (acc.1, some v.name)
      else acc

/-- The `for var_name in nc.variables` scan (source lines 66–77). -/
def varPass (vs : List Var) (acc : Option String × Option String) : Option String × Option String :=
  vs.foldl varStep acc

/-- One iteration of the dimension-name fallback scan. -/
def dimStep (acc : Option String × Option String) (d : String) : Option String × Option String :=
  if latAliases.contains (lowerName d) then (some d, acc.2)
  else if lonAliases.contains (lowerName d) then (acc.1, some d)
  else acc

/-- The `for dim_name in nc.dimensions` fallback scan (source lines 81–85). -/
def dimPass (ds : List String) (acc : Option String × Option String) : Option String × Option String :=
  ds.foldl dimStep acc

/-- Python truthiness of the resolved name: `not lat_var` is true when the
name is unset or the empty string. -/
def optFalsy : Option String → Bool
  | none => true
  | some s => s == ""

/-- Axis resolution (source lines 58–89): one variable scan, a dimension-name
fallback entered when either axis is still falsy, then the final
`if not lat_var or not lon_var: return None` check. -/
def resolveAxes (nc : NCFile) : Option (String × String) :=
  let p := varPass nc.vars (none, none)
  let p := if optFalsy p.1 || optFalsy p.2 then dimPass (nc.dimensions.map (·.1)) p else p
  match p with
  | (some a, some b) => if a == "" || b == "" then none else some (a, b)
  | _ => none

/-- `nc.variables[name]` (a `KeyError` on a missing name is modelled by
`none`). -/
def lookupVar (nc : NCFile) (name : String) : Option Var :=
  nc.vars.find? (fun v => v.name == name)

/-! ## Measurement selection (source lines 95–108) -/

/-- The measurement candidates: every catalog variable whose name is neither
resolved axis name and that has at least two dimensions, in catalog order. -/
def dataVars (nc : NCFile) (la lo : String) : List Var :=
  nc.vars.filter (fun v => decide (v.name ≠ la ∧ v.name ≠ lo ∧ 2 ≤ v.dims.length))

/-! ## Missing-Value Normalizer (source lines 110–119) -/

/-- The sentinel the source masks with: the declared `_FillValue` if present,
else the declared `missing_value` if present (`hasattr` checks in that
order). -/
def sentinelOf (v : Var) : Option V := v.fillValue.or v.missingValue

/-- One cell of `np.where(np.ma.getmask(data), None, data)` after
`np.ma.masked_equal`: a cell equal to the sentinel becomes the absent marker
`none`; with no sentinel the mask is empty. -/
def normCell (s : Option V) (c : V) : Option V :=
  match s with
  | some sv => if veq c sv then none else some c
  | none => some c

/-- The normalized working copy of a variable's data: same shape, masked cells
replaced by the absent marker.  The raw array `v.data` is untouched. -/
def normalizeVar (v : Var) : Nd (Option V) := v.data.map (normCell (sentinelOf v))

/-! ## Grid Materializer (source lines 121–128) -/

/-- `np.meshgrid(xs, ys)`: returns `(X, Y)` of shape
`(ys.length, xs.length)` with `X[i][j] = xs[j]` and `Y[i][j] = ys[i]`. -/
def meshgrid (xs ys : List V) : Arr2 V × Arr2 V :=
  (⟨ys.length, xs.length, fun _ j => xs.getD j V.nan⟩,
   ⟨ys.length, xs.length, fun i _ => ys.getD i V.nan⟩)

/-- The coordinate grid `(lat_grid, lon_grid)`: two 1-D axes are expanded with
`lon_grid, lat_grid = np.meshgrid(lons, lats)`; any other combination is used
as-is. -/
def makeGrid (lats lons : Nd V) : Nd V × Nd V :=
  match lats, lons with
  | .one la, .one lo => (.two (meshgrid lo la).2, .two (meshgrid lo la).1)
  | la, lo => (la, lo)

/-! ## Point Extractor (source lines 130–153) -/

/-- An output data point; `value = none` is the absent marker (JSON `null`). -/
structure Point where
  latitude : V
  longitude : V
  value : Option V
deriving DecidableEq, Repr

/-- `val is None or np.isnan(val)` (short-circuit: `isnan` is only evaluated
on a float). -/
def isAbsentOrNan : Option V → Bool
  | none => true
  | some v => v.isNanB

/-- Source lines 136–142: the float coercions of the grid cell and the
transposed read
`data[j, i] if j < data.shape[0] and i < data.shape[1] else data[i, j]`,
followed by `float(val)` on a non-absent value.  `n` is the already-computed
`data.shape[1]`.  Exception plumbing is written out with explicit matches. -/
def cellVals (latg long : Nd V) (data : Nd (Option V)) (n i j : Nat) :
    Except Unit Point :=
  match latg.get2? i j with
  | .error e => .error e
  | .ok latRaw =>
    match pyFloat latRaw with
    | .error e => .error e
    | .ok latVal =>
      match long.get2? i j with
      | .error e => .error e
      | .ok lonRaw =>
        match pyFloat lonRaw with
        | .error e => .error e
        | .ok lonVal =>
          match (if j < data.shape0 ∧ i < n then data.get2? j i else data.get2? i j) with
          | .error e => .error e
          | .ok none => .ok ⟨latVal, lonVal, none⟩
          | .ok (some v) =>
            match pyFloat v with
            | .error e => .error e
            | .ok fv => .ok ⟨latVal, lonVal, some fv⟩

/-- The body of the loop over grid cell `(i, j)` before the NaN filter
(source lines 134–142): the measurement-bounds guard
`data.shape[0] > i and data.shape[1] > j` (short-circuit: `shape[1]` is only
read when `shape[0] > i`), then the cell computation. -/
def cellCore (latg long : Nd V) (data : Nd (Option V)) (i j : Nat) :
    Except Unit (Option Point) :=
  if data.shape0 > i then
    match data.shape1? with
    | .error e => .error e
    | .ok n =>
      if n > j then (cellVals latg long data n i j).map some
      else .ok none
  else .ok none

/-- One grid cell processed under the inclusion policy: `filterNan = true`
(`ExcludeAbsent`) drops a point whose value is absent or NaN
(source lines 144–146); `none` means no point is emitted. -/
def cellPoint (latg long : Nd V) (data : Nd (Option V)) (filterNan : Bool) (i j : Nat) :
    Except Unit (Option Point) :=
  (cellCore latg long data i j).map fun p? =>
    match p? with
    | none => none
    | some p => if filterNan && isAbsentOrNan p.value then none else some p

/-- One row of grid indices `[(i, 0), …, (i, c-1)]`. -/
def rowIdx (i c : Nat) : List (Nat × Nat) := (List.range c).map (fun j => (i, j))

/-- Row-major grid indices, latitude axis outer. -/
def idxList : Nat → Nat → List (Nat × Nat)
  | 0, _ => []
  | r + 1, c => idxList r c ++ rowIdx r c

/-- Run the loop body over cells in order, collecting emitted points; the
first raised exception aborts the loop. -/
def runCells (f : Nat × Nat → Except Unit (Option Point)) :
    List (Nat × Nat) → Except Unit (List Point)
  | [] => .ok []
  | ij :: rest =>
    match f ij with
    | .error e => .error e
    | .ok p? =>
      match runCells f rest with
      | .error e => .error e
      | .ok ps => .ok (p?.toList ++ ps)

/-- The double loop over `lat_grid.shape[0]` × `lat_grid.shape[1]` (source
lines 132–153); `lat_grid.shape[1]` is only evaluated once the outer loop
runs, so a 1-D grid raises exactly when the outer range is non-empty. -/
def extractPoints (latg long : Nd V) (data : Nd (Option V)) (filterNan : Bool) :
    Except Unit (List Point) :=
  if latg.shape0 = 0 then .ok []
  else
    match latg.shape1? with
    | .error e => .error e
    | .ok c =>
      runCells (fun ij => cellPoint latg long data filterNan ij.1 ij.2) (idxList latg.shape0 c)

/-! ## Output Assembler (source lines 155–171) -/

/-- All cells of an array, row-major. -/
def flattenNd : Nd V → List V
  | .one xs => xs
  | .two a => (idxList a.rows a.cols).map (fun ij => a.get ij.1 ij.2)

/-- The finite floats of a cell list. -/
def numsOf (l : List V) : List ℚ :=
  l.filterMap (fun v => match v with | .num q => some q | _ => none)

/-- `np.min` over a coordinate array: raises on an empty array (`ValueError`)
and on non-numeric cells; NaN propagates. -/
def npMin (x : Nd V) : Except Unit V :=
  let l := flattenNd x
  if l.any (fun v => v == V.bad) then .error ()
  else if l.any V.isNanB then .ok .nan
  else match numsOf l with
    | [] => .error ()
    | q :: qs => .ok (.num (qs.foldl min q))

/-- `np.max` over a coordinate array, same error behaviour as `npMin`. -/
def npMax (x : Nd V) : Except Unit V :=
  let l := flattenNd x
  if l.any (fun v => v == V.bad) then .error ()
  else if l.any V.isNanB then .ok .nan
  else match numsOf l with
    | [] => .error ()
    | q :: qs => .ok (.num (qs.foldl max q))

/-- The four range bounds `[min lats, max lats]`, `[min lons, max lons]`
computed while assembling the result (source lines 160–161). -/
def ranges4 (lats lons : Nd V) : Except Unit ((V × V) × (V × V)) :=
  match npMin lats, npMax lats, npMin lons, npMax lons with
  | .ok a, .ok b, .ok c, .ok d => .ok ((a, b), (c, d))
  | _, _, _, _ => .error ()

/-- The `file_info` block of the result (source lines 40–56). -/
structure FileInfo where
  filename : String
  vars : List String
  dimensions : List (String × Nat)
  global_attributes : List (String × String)
deriving DecidableEq, Repr

/-- The `coordinate_system` block of the result. -/
structure CoordSystem where
  latitude_variable : String
  longitude_variable : String
  latitude_range : V × V
  longitude_range : V × V
deriving DecidableEq, Repr

/-- The `data_variable` block of the result. -/
structure DataVarInfo where
  name : String
  units : String
  long_name : String
deriving DecidableEq, Repr

/-- The full result dictionary returned on success. -/
structure PResult where
  file_info : FileInfo
  coordinate_system : CoordSystem
  data_variable : DataVarInfo
  data_points : List Point
deriving DecidableEq, Repr

/-- The distinguishable failure paths of `parse_nc_file`: the two explicit
`return None` branches with their warning prints, and the blanket
`except Exception` handler. -/
inductive PErr where
  | axisNotFound
  | noDataVar
  | exn
deriving DecidableEq, Repr

/-- `file_info` assembly (source lines 40–56). -/
def mkFileInfo (nc : NCFile) : FileInfo :=
  ⟨nc.filename, nc.vars.map (·.name), nc.dimensions, nc.globalAttrs⟩

/-- `parse_nc_file` with the failure paths kept apart (the body of the `try`
block, source lines 38–171). -/
def parse_nc_fileE (nc : NCFile) (filterNan : Bool) : Except PErr PResult :=
  match resolveAxes nc with
  | none => .error .axisNotFound
  | some (la, lo) =>
    match lookupVar nc la with
    | none => .error .exn
    | some latV =>
      match lookupVar nc lo with
      | none => .error .exn
      | some lonV =>
        match dataVars nc la lo with
        | [] => .error .noDataVar
        | dv :: _ =>
          let ndata := normalizeVar dv
          let g := makeGrid latV.data lonV.data
          match extractPoints g.1 g.2 ndata filterNan with
          | .error _ => .error .exn
          | .ok pts =>
            match ranges4 latV.data lonV.data with
            | .error _ => .error .exn
            | .ok rg =>
              .ok ⟨mkFileInfo nc,
                   ⟨la, lo, rg.1, rg.2⟩,
                   ⟨dv.name, dv.units.getD "unknown", dv.long_name.getD dv.name⟩,
                   pts⟩

/-- The public interface of `parse_nc_file`: every failure path — including
any exception reaching the blanket handler — becomes `None`. -/
def parse_nc_file (nc : NCFile) (filterNan : Bool) : Option PResult :=
  (parse_nc_fileE nc filterNan).toOption

/-! ## Derived notions used to state the claims -/

/-- The resolved latitude variable, longitude variable and selected
measurement variable of a file, when the pipeline reaches the extraction
stage (mirrors the stage structure of `parse_nc_fileE`). -/
def stagesOf (nc : NCFile) : Option (Var × Var × Var) :=
  match resolveAxes nc with
  | none => none
  | some (la, lo) =>
    match lookupVar nc la, lookupVar nc lo with
    | some latV, some lonV =>
      match dataVars nc la lo with
      | [] => none
      | dv :: _ => some (latV, lonV, dv)
    | _, _ => none

/-- The number of grid cells that pass the measurement-bounds guard:
`min(R, M) × min(C, N)` for a grid of shape `R×C` and a measurement whose
first two dimension sizes are `M×N` (a missing second dimension counts 0). -/
def gridLen (latg : Nd V) (nd : Nd (Option V)) : Nat :=
  min latg.shape0 nd.shape0 * min (latg.shape1?.toOption.getD 0) (nd.shape1?.toOption.getD 0)

/-- The point count an `IncludeAll` run actually produces on success. -/
def c2len (nc : NCFile) : Nat :=
  match stagesOf nc with
  | none => 0
  | some (latV, lonV, dv) => gridLen (makeGrid latV.data lonV.data).1 (normalizeVar dv)

/-- The points the `ExcludeAbsent` policy keeps: value neither absent nor
NaN. -/
def keepB (p : Point) : Bool := !(isAbsentOrNan p.value)

/-- The policy filter applied to a single emitted-or-skipped cell. -/
def keepFn (p : Point) : Option Point := if isAbsentOrNan p.value then none else some p

/-- Whether a processed cell emitted a point. -/
def emitB : Except Unit (Option Point) → Bool
  | .ok (some _) => true
  | _ => false

/-- The variable-scan latitude matcher: a variable with a declared
`long_name` matches by latitude-keyword containment, any other variable by
name alias. -/
def varMatchesLat (v : Var) : Bool :=
  match v.long_name with
  | some ln => lnLat ln
  | none => latAliases.contains (lowerName v.name)

/-- The variable-scan longitude matcher (a latitude match shadows it in the
`elif` chain). -/
def varMatchesLon (v : Var) : Bool :=
  match v.long_name with
  | some ln => !lnLat ln && lnLon ln
  | none => !latAliases.contains (lowerName v.name) && lonAliases.contains (lowerName v.name)

/-- The dimension-scan latitude matcher. -/
def dimMatchesLat (d : String) : Bool := latAliases.contains (lowerName d)

/-- The dimension-scan longitude matcher. -/
def dimMatchesLon (d : String) : Bool :=
  !latAliases.contains (lowerName d) && lonAliases.contains (lowerName d)

/-! ## Concrete instances used by witnesses and counterexamples -/

/-- A 2×2 constant latitude grid. -/
def w1LatG : Nd V := .two ⟨2, 2, fun _ _ => .num 1⟩

/-- A 2×2 constant longitude grid. -/
def w1LonG : Nd V := .two ⟨2, 2, fun _ _ => .num 2⟩

/-- A 2×2 normalized measurement whose cell `(1, 0)` is 10 and all others 3. -/
def w1D : Arr2 (Option V) :=
  ⟨2, 2, fun i j => if i = 1 ∧ j = 0 then some (.num 10) else some (.num 3)⟩

/-- The point emitted for grid cell `(0, 1)` of `w1D`: its value is the
transposed cell `(1, 0)`. -/
def w1P : Point := ⟨.num 1, .num 2, some (.num 10)⟩

/-- A 1-D latitude axis of length 2. -/
def c2Lat : Var := ⟨"lat", ["lat"], none, none, none, none, .one [.num 10, .num 20]⟩

/-- A 1-D longitude axis of length 2. -/
def c2Lon : Var := ⟨"lon", ["lon"], none, none, none, none, .one [.num 100, .num 101]⟩

/-- A rank-2 measurement of shape 1×1 — smaller than the 2×2 grid. -/
def c2Data : Var := ⟨"temp", ["a", "b"], none, none, none, none, .two ⟨1, 1, fun _ _ => .num 7⟩⟩

/-- A file whose coordinate grid is 2×2 but whose measurement array is 1×1. -/
def c2nc : NCFile := ⟨"c2.nc", [c2Lat, c2Lon, c2Data], [], []⟩

/-- The measurement of the specification's end-to-end example,
`[[FILL, 2], [3, 4]]` with `_FillValue = 99`. -/
def w2Data : Arr2 V :=
  ⟨2, 2, fun i j =>
    if i = 0 ∧ j = 0 then .num 99
    else if i = 0 ∧ j = 1 then .num 2
    else if i = 1 ∧ j = 0 then .num 3
    else .num 4⟩

/-- The end-to-end example file: `lats = [1, 2]`, `lons = [5, 6]`,
measurement `w2Data`. -/
def w2nc : NCFile :=
  ⟨"w2.nc",
   [⟨"lat", ["lat"], none, none, none, none, .one [.num 1, .num 2]⟩,
    ⟨"lon", ["lon"], none, none, none, none, .one [.num 5, .num 6]⟩,
    ⟨"temp", ["lat", "lon"], some "Temperature", some "K", some (.num 99), some (.num 7),
     .two w2Data⟩],
   [("lat", 2), ("lon", 2)], [("title", "t")]⟩

/-- The `IncludeAll` result of `w2nc`. -/
def w2res : PResult :=
  ⟨⟨"w2.nc", ["lat", "lon", "temp"], [("lat", 2), ("lon", 2)], [("title", "t")]⟩,
   ⟨"lat", "lon", (.num 1, .num 2), (.num 5, .num 6)⟩,
   ⟨"temp", "K", "Temperature"⟩,
   [⟨.num 1, .num 5, none⟩, ⟨.num 1, .num 6, some (.num 3)⟩,
    ⟨.num 2, .num 5, some (.num 2)⟩, ⟨.num 2, .num 6, some (.num 4)⟩]⟩

/-- A 1×1 measurement holding a single NaN cell (no declared sentinel). -/
def c3nc : NCFile :=
  ⟨"c3.nc",
   [⟨"lat", ["lat"], none, none, none, none, .one [.num 1]⟩,
    ⟨"lon", ["lon"], none, none, none, none, .one [.num 5]⟩,
    ⟨"temp", ["a", "b"], none, none, none, none, .two ⟨1, 1, fun _ _ => .nan⟩⟩],
   [], []⟩

/-- A 2×2 example holding a fill cell, a NaN cell and two plain values:
`[[99, NaN], [3, 4]]` with `_FillValue = 99`. -/
def w3Data : Arr2 V :=
  ⟨2, 2, fun i j =>
    if i = 0 ∧ j = 0 then .num 99
    else if i = 0 ∧ j = 1 then .nan
    else if i = 1 ∧ j = 0 then .num 3
    else .num 4⟩

/-- File around `w3Data`. -/
def w3nc : NCFile :=
  ⟨"w3.nc",
   [⟨"lat", ["lat"], none, none, none, none, .one [.num 1, .num 2]⟩,
    ⟨"lon", ["lon"], none, none, none, none, .one [.num 5, .num 6]⟩,
    ⟨"temp", ["lat", "lon"], none, none, some (.num 99), none, .two w3Data⟩],
   [], []⟩

/-- The `IncludeAll` result of `w3nc`: an absent point, a NaN point and two
numeric points. -/
def w3res : PResult :=
  ⟨⟨"w3.nc", ["lat", "lon", "temp"], [], []⟩,
   ⟨"lat", "lon", (.num 1, .num 2), (.num 5, .num 6)⟩,
   ⟨"temp", "unknown", "temp"⟩,
   [⟨.num 1, .num 5, none⟩, ⟨.num 1, .num 6, some (.num 3)⟩,
    ⟨.num 2, .num 5, some .nan⟩, ⟨.num 2, .num 6, some (.num 4)⟩]⟩

/-- A 2-D (1×1) latitude variable. -/
def c4Lat : Var := ⟨"lat", ["r", "c"], none, none, none, none, .two ⟨1, 1, fun _ _ => .num 10⟩⟩

/-- A 1-D longitude variable. -/
def c4Lon : Var := ⟨"lon", ["k"], none, none, none, none, .one [.num 5]⟩

/-- A rank-2 measurement with an empty leading dimension (shape 0×3). -/
def c4Data : Var := ⟨"temp", ["z", "c"], none, none, none, none, .two ⟨0, 3, fun _ _ => .num 0⟩⟩

/-- A mixed-dimensionality file (2-D latitude, 1-D longitude) whose
measurement bounds-check skips every grid cell. -/
def c4nc : NCFile := ⟨"c4.nc", [c4Lat, c4Lon, c4Data], [("r", 1)], []⟩

/-- A mixed-dimensionality file with a non-empty 1-D latitude and a 2-D
longitude. -/
def w4nc : NCFile :=
  ⟨"w4.nc",
   [⟨"lat", ["lat"], none, none, none, none, .one [.num 10]⟩,
    ⟨"lon", ["a", "b"], none, none, none, none, .two ⟨1, 1, fun _ _ => .num 5⟩⟩,
    ⟨"temp", ["a", "b"], none, none, none, none, .two ⟨1, 1, fun _ _ => .num 7⟩⟩],
   [], []⟩

/-- A catalog where variable `A` (with `long_name` "Latitude of grid cell")
precedes a variable named plainly `y`; a variable `lon` resolves longitude. -/
def c5nc : NCFile :=
  ⟨"c5.nc",
   [⟨"A", [], some "Latitude of grid cell", none, none, none, .one [.num 1]⟩,
    ⟨"y", [], none, none, none, none, .one [.num 2]⟩,
    ⟨"lon", [], none, none, none, none, .one [.num 3]⟩],
   [], []⟩

/-- A 2×2 raw measurement whose cell `(0, 0)` equals the declared fill value
99 and whose cell `(0, 1)` equals the declared missing value 7. -/
def w7d : Arr2 V :=
  ⟨2, 2, fun i j =>
    if i = 0 ∧ j = 0 then .num 99
    else if i = 0 ∧ j = 1 then .num 7
    else .num 1⟩

/-- A measurement variable declaring both `_FillValue = 99` and
`missing_value = 7`. -/
def w7v : Var := ⟨"temp", ["a", "b"], none, none, some (.num 99), some (.num 7), .two w7d⟩

/-- A resolvable file with two rank-2 measurement candidates. -/
def w8nc : NCFile :=
  ⟨"w8.nc",
   [⟨"lat", ["lat"], none, none, none, none, .one [.num 1]⟩,
    ⟨"lon", ["lon"], none, none, none, none, .one [.num 5]⟩,
    ⟨"temp", ["a", "b"], none, some "K", none, none, .two ⟨1, 1, fun _ _ => .num 3⟩⟩,
    ⟨"salt", ["a", "b"], none, none, none, none, .two ⟨1, 1, fun _ _ => .num 4⟩⟩],
   [], []⟩

/-- The `IncludeAll` result of `w8nc`: the first candidate `temp` is the
active measurement. -/
def w8res : PResult :=
  ⟨⟨"w8.nc", ["lat", "lon", "temp", "salt"], [], []⟩,
   ⟨"lat", "lon", (.num 1, .num 1), (.num 5, .num 5)⟩,
   ⟨"temp", "K", "temp"⟩,
   [⟨.num 1, .num 5, some (.num 3)⟩]⟩

/-- A 1×2 measurement whose cell `(0, 0)` is a non-numeric object. -/
def c9nc : NCFile :=
  ⟨"c9.nc",
   [⟨"lat", ["lat"], none, none, none, none, .one [.num 10]⟩,
    ⟨"lon", ["lon"], none, none, none, none, .one [.num 5, .num 6]⟩,
    ⟨"temp", ["a", "b"], none, none, none, none,
     .two ⟨1, 2, fun _ j => if j = 0 then .bad else .num 2⟩⟩],
   [], []⟩

/-- A 1×1 normalized measurement holding a non-numeric cell. -/
def w9d : Arr2 (Option V) := ⟨1, 1, fun _ _ => some .bad⟩

/-! ## Helper lemmas: the index list -/

theorem idxList_zero_cols (r : Nat) : idxList r 0 = [] := by
  induction r with
  | zero => rfl
  | succ r ih => simp [idxList, rowIdx, ih]

theorem mem_rowIdx {i c : Nat} {ij : Nat × Nat} :
    ij ∈ rowIdx i c ↔ ij.1 = i ∧ ij.2 < c := by
  cases ij with
  | mk a b =>
    simp only [rowIdx, List.mem_map, List.mem_range, Prod.mk.injEq]
    constructor
    · rintro ⟨j, hj, h1, h2⟩
      exact ⟨h1.symm, h2 ▸ hj⟩
    · rintro ⟨h1, h2⟩
      exact ⟨b, h2, h1.symm, rfl⟩

theorem mem_idxList {r c : Nat} {ij : Nat × Nat} :
    ij ∈ idxList r c ↔ ij.1 < r ∧ ij.2 < c := by
  induction r with
  | zero => simp [idxList]
  | succ r ih =>
    simp only [idxList, List.mem_append, ih, mem_rowIdx]
    omega

theorem countP_range_lt (c n : Nat) :
    (List.range c).countP (fun j => decide (j < n)) = min c n := by
  induction c with
  | zero => simp
  | succ c ih =>
    rw [List.range_succ, List.countP_append, ih]
    by_cases h : c < n <;> simp [List.countP_cons, h] <;> omega

theorem countP_idxList (r c m n : Nat) :
    (idxList r c).countP (fun ij => decide (ij.1 < m) && decide (ij.2 < n)) =
      min r m * min c n := by
  induction r with
  | zero => simp [idxList]
  | succ r ih =>
    rw [idxList, List.countP_append, ih, rowIdx, List.countP_map]
    rcases Nat.lt_or_ge r m with h | h
    · have h1 : min (r + 1) m = min r m + 1 := by omega
      have hp : ((fun ij : Nat × Nat => decide (ij.1 < m) && decide (ij.2 < n)) ∘
          fun j => (r, j)) = fun j => decide (j < n) :=
        funext fun a => by simp [Function.comp_apply, h]
      rw [hp, countP_range_lt, h1, Nat.succ_mul]
    · have h1 : min (r + 1) m = min r m := by omega
      have hp : ((fun ij : Nat × Nat => decide (ij.1 < m) && decide (ij.2 < n)) ∘
          fun j => (r, j)) = fun _ => false :=
        funext fun a => by simp [Function.comp_apply, Nat.not_lt.mpr h]
      rw [hp, h1]
      simp

/-! ## Helper lemmas: the cell loop -/

theorem runCells_ok_each {f : Nat × Nat → Except Unit (Option Point)}
    {l : List (Nat × Nat)} {ps : List Point} (h : runCells f l = .ok ps) :
    ∀ ij ∈ l, ∃ y, f ij = .ok y := by
  induction l generalizing ps with
  | nil => simp
  | cons ij rest ih =>
    intro ij2 hm
    rcases hf : f ij with e | p?
    · simp only [runCells, hf] at h
      exact absurd h (by simp)
    · simp only [runCells, hf] at h
      rcases hr : runCells f rest with e | ps2
      · simp only [hr] at h
        exact absurd h (by simp)
      · rcases List.mem_cons.mp hm with rfl | hm2
        · exact ⟨p?, hf⟩
        · exact ih hr ij2 hm2

theorem runCells_error_of_mem {f : Nat × Nat → Except Unit (Option Point)}
    {l : List (Nat × Nat)} {ij : Nat × Nat} (hm : ij ∈ l) (hf : f ij = .error ()) :
    runCells f l = .error () := by
  rcases h : runCells f l with e | ps
  · cases e; rfl
  · rcases runCells_ok_each h ij hm with ⟨y, hy⟩
    rw [hf] at hy
    exact absurd hy (by simp)

theorem emitB_ok (y : Option Point) : emitB (.ok y) = y.isSome := by
  cases y <;> rfl

theorem pyFloat_ok {v fv : V} (h : pyFloat v = .ok fv) : fv = v := by
  cases v with
  | num q => simp [pyFloat] at h; exact h.symm
  | nan => simp [pyFloat] at h; exact h.symm
  | bad => simp [pyFloat] at h

theorem runCells_length {f : Nat × Nat → Except Unit (Option Point)}
    {l : List (Nat × Nat)} {ps : List Point} (h : runCells f l = .ok ps) :
    ps.length = l.countP (fun ij => emitB (f ij)) := by
  induction l generalizing ps with
  | nil =>
    simp only [runCells] at h
    cases h
    simp
  | cons ij rest ih =>
    rcases hf : f ij with e | p?
    · simp only [runCells, hf] at h
      exact absurd h (by simp)
    · simp only [runCells, hf] at h
      rcases hr : runCells f rest with e | ps2
      · simp only [hr] at h
        exact absurd h (by simp)
      · simp only [hr, Except.ok.injEq] at h
        subst h
        rw [List.countP_cons, List.length_append, ih hr]
        cases p? <;> simp [emitB, hf]
        omega

/-! ## Helper lemmas: one cell -/

theorem cellPoint_false (latg long : Nd V) (data : Nd (Option V)) (i j : Nat) :
    cellPoint latg long data false i j = cellCore latg long data i j := by
  rcases h : cellCore latg long data i j with e | p?
  · simp [cellPoint, h, Except.map]
  · cases p? <;> simp [cellPoint, h, Except.map]

theorem cellPoint_true_eq (latg long : Nd V) (data : Nd (Option V)) (i j : Nat) :
    cellPoint latg long data true i j =
      (cellPoint latg long data false i j).map (fun p? => p?.bind keepFn) := by
  rw [cellPoint_false]
  rcases h : cellCore latg long data i j with e | p?
  · simp [cellPoint, h, Except.map]
  · cases p? <;> simp [cellPoint, h, Except.map, keepFn, Option.bind]

theorem cellCore_one {latg long : Nd V} {xs : List (Option V)} {i j : Nat} {y : Option Point}
    (h : cellCore latg long (.one xs) i j = .ok y) : y = none := by
  by_cases h1 : xs.length > i
  · simp only [cellCore, Nd.shape0, if_pos h1, Nd.shape1?] at h
    exact Except.noConfusion h
  · simp only [cellCore, Nd.shape0, if_neg h1, Except.ok.injEq] at h
    exact h.symm

theorem cellCore_two_emit {latg long : Nd V} {d : Arr2 (Option V)} {i j : Nat} {y : Option Point}
    (h : cellCore latg long (.two d) i j = .ok y) :
    y.isSome = (decide (i < d.rows) && decide (j < d.cols)) := by
  by_cases h1 : d.rows > i
  · by_cases h2 : d.cols > j
    · simp only [cellCore, Nd.shape0, if_pos h1, Nd.shape1?, if_pos h2] at h
      rcases hv : cellVals latg long (.two d) d.cols i j with e | p
      · rw [hv] at h
        exact absurd h (by simp [Except.map])
      · rw [hv] at h
        simp only [Except.map, Except.ok.injEq] at h
        subst h
        simp [h1, h2]
    · simp only [cellCore, Nd.shape0, if_pos h1, Nd.shape1?, if_neg h2, Except.ok.injEq] at h
      subst h
      simp [h2]
  · simp only [cellCore, Nd.shape0, if_neg h1, Except.ok.injEq] at h
    subst h
    simp [h1]

theorem cellVals_value {latg long : Nd V} {d : Arr2 (Option V)} {i j : Nat} {p : Point}
    (h1 : i < d.rows) (h2 : j < d.cols)
    (h : cellVals latg long (.two d) d.cols i j = .ok p) :
    p.value = (if j < d.rows ∧ i < d.cols then d.get j i else d.get i j) := by
  rcases hA : latg.get2? i j with e | latRaw
  · simp only [cellVals, hA] at h
    exact Except.noConfusion h
  rcases hB : pyFloat latRaw with e | latVal
  · simp only [cellVals, hA, hB] at h
    exact Except.noConfusion h
  rcases hC : long.get2? i j with e | lonRaw
  · simp only [cellVals, hA, hB, hC] at h
    exact Except.noConfusion h
  rcases hD : pyFloat lonRaw with e | lonVal
  · simp only [cellVals, hA, hB, hC, hD] at h
    exact Except.noConfusion h
  simp only [cellVals, hA, hB, hC, hD, Nd.shape0] at h
  by_cases hc : j < d.rows ∧ i < d.cols
  · rw [if_pos hc] at h
    simp only [Nd.get2?, Arr2.idx?, if_pos hc] at h
    rcases hg : d.get j i with _ | v
    · simp only [hg, Except.ok.injEq] at h
      subst h
      simp [hc, hg]
    · simp only [hg] at h
      rcases hE : pyFloat v with e | fv
      · simp only [hE] at h
        exact Except.noConfusion h
      · simp only [hE, Except.ok.injEq] at h
        subst h
        simp [hc, hg, pyFloat_ok hE]
  · rw [if_neg hc] at h
    simp only [Nd.get2?, Arr2.idx?, if_pos (And.intro h1 h2)] at h
    rcases hg : d.get i j with _ | v
    · simp only [hg, Except.ok.injEq] at h
      subst h
      simp [hc, hg]
    · simp only [hg] at h
      rcases hE : pyFloat v with e | fv
      · simp only [hE] at h
        exact Except.noConfusion h
      · simp only [hE, Except.ok.injEq] at h
        subst h
        simp [hc, hg, pyFloat_ok hE]

/-! ## Helper lemmas: the extraction stage -/

theorem exceptMap_ok {α β ε : Type} (f : α → β) (a : α) :
    (Except.ok a : Except ε α).map f = .ok (f a) := rfl

theorem runCells_map_filter {f : Nat × Nat → Except Unit (Option Point)}
    {l : List (Nat × Nat)} {ps : List Point} (h : runCells f l = .ok ps) :
    runCells (fun ij => (f ij).map (fun p? => p?.bind keepFn)) l = .ok (ps.filter keepB) := by
  induction l generalizing ps with
  | nil =>
    simp only [runCells] at h
    cases h
    simp [runCells]
  | cons ij rest ih =>
    rcases hf : f ij with e | p?
    · simp only [runCells, hf] at h
      exact absurd h (by simp)
    · simp only [runCells, hf] at h
      rcases hr : runCells f rest with e | ps2
      · simp only [hr] at h
        exact absurd h (by simp)
      · simp only [hr, Except.ok.injEq] at h
        subst h
        simp only [runCells, hf, exceptMap_ok]
        rw [ih hr]
        cases p? with
        | none => simp
        | some p =>
          by_cases hk : isAbsentOrNan p.value
          · simp [keepFn, keepB, hk, List.filter_cons]
          · simp [keepFn, keepB, hk, List.filter_cons]

theorem extract_filter {latg long : Nd V} {nd : Nd (Option V)} {ps : List Point}
    (h : extractPoints latg long nd false = .ok ps) :
    extractPoints latg long nd true = .ok (ps.filter keepB) := by
  by_cases hr : latg.shape0 = 0
  · simp only [extractPoints, if_pos hr] at h ⊢
    cases h
    simp
  · cases latg with
    | one xs =>
      simp only [extractPoints, if_neg hr, Nd.shape1?] at h
      exact Except.noConfusion h
    | two a =>
      simp only [extractPoints, if_neg hr, Nd.shape1?] at h ⊢
      have hfun : (fun ij : Nat × Nat => cellPoint (.two a) long nd true ij.1 ij.2) =
          fun ij => (cellPoint (.two a) long nd false ij.1 ij.2).map (fun p? => p?.bind keepFn) :=
        funext fun ij => cellPoint_true_eq (.two a) long nd ij.1 ij.2
      rw [hfun]
      exact runCells_map_filter h

theorem extract_ok_length {latg long : Nd V} {nd : Nd (Option V)} {ps : List Point}
    (h : extractPoints latg long nd false = .ok ps) :
    ps.length = gridLen latg nd := by
  by_cases hr : latg.shape0 = 0
  · simp only [extractPoints, if_pos hr] at h
    cases h
    simp [gridLen, hr]
  · cases latg with
    | one xs =>
      simp only [extractPoints, if_neg hr, Nd.shape1?] at h
      exact Except.noConfusion h
    | two a =>
      simp only [extractPoints, if_neg hr, Nd.shape1?] at h
      have hlen := runCells_length h
      have heach := runCells_ok_each h
      cases nd with
      | two d =>
        have hcount : (idxList (Nd.shape0 (.two a)) a.cols).countP
            (fun ij => emitB (cellPoint (.two a) long (.two d) false ij.1 ij.2)) =
            (idxList (Nd.shape0 (.two a)) a.cols).countP
            (fun ij => decide (ij.1 < d.rows) && decide (ij.2 < d.cols)) := by
          refine List.countP_congr fun ij hm => ?_
          rcases heach ij hm with ⟨y, hy⟩
          have hy2 : cellCore (.two a) long (.two d) ij.1 ij.2 = .ok y := by
            rw [cellPoint_false] at hy
            exact hy
          rw [hy, emitB_ok, cellCore_two_emit hy2]
        rw [hlen, hcount]
        simp only [Nd.shape0] at *
        rw [countP_idxList]
        simp [gridLen, Nd.shape0, Nd.shape1?, Except.toOption]
      | one xs =>
        have hcount : (idxList (Nd.shape0 (.two a)) a.cols).countP
            (fun ij => emitB (cellPoint (.two a) long (.one xs) false ij.1 ij.2)) = 0 := by
          rw [List.countP_eq_zero]
          intro ij hm
          rcases heach ij hm with ⟨y, hy⟩
          rw [cellPoint_false] at hy
          have : y = none := cellCore_one hy
          subst this
          rw [cellPoint_false, hy]
          simp [emitB]
        rw [hlen, hcount]
        simp [gridLen, Nd.shape1?, Except.toOption]

/-! ## Helper lemmas: error paths of the extraction stage -/

theorem extract_one_error (xs : List V) (long : Nd V) (nd : Nd (Option V)) (fn : Bool)
    (hne : xs ≠ []) : extractPoints (.one xs) long nd fn = .error () := by
  simp only [extractPoints, Nd.shape0, Nd.shape1?]
  rw [if_neg (by simpa using hne)]

theorem cellVals_bad {latg long : Nd V} {d : Arr2 (Option V)} {i j : Nat}
    (hi : i < d.rows) (hj : j < d.cols)
    (hbad : (if j < d.rows ∧ i < d.cols then d.get j i else d.get i j) = some V.bad) :
    cellVals latg long (.two d) d.cols i j = .error () := by
  rcases hA : latg.get2? i j with e | latRaw
  · cases e
    simp [cellVals, hA]
  rcases hB : pyFloat latRaw with e | latVal
  · cases e
    simp [cellVals, hA, hB]
  rcases hC : long.get2? i j with e | lonRaw
  · cases e
    simp [cellVals, hA, hB, hC]
  rcases hD : pyFloat lonRaw with e | lonVal
  · cases e
    simp [cellVals, hA, hB, hC, hD]
  simp only [cellVals, hA, hB, hC, hD, Nd.shape0]
  by_cases hc : j < d.rows ∧ i < d.cols
  · rw [if_pos hc] at hbad ⊢
    simp only [Nd.get2?, Arr2.idx?, if_pos hc, hbad]
    simp [pyFloat]
  · rw [if_neg hc] at hbad ⊢
    simp only [Nd.get2?, Arr2.idx?, if_pos (And.intro hi hj), hbad]
    simp [pyFloat]

theorem cellPoint_bad {latg long : Nd V} {d : Arr2 (Option V)} {i j : Nat} (fn : Bool)
    (hi : i < d.rows) (hj : j < d.cols)
    (hbad : (if j < d.rows ∧ i < d.cols then d.get j i else d.get i j) = some V.bad) :
    cellPoint latg long (.two d) fn i j = .error () := by
  have hcv := @cellVals_bad latg long d i j hi hj hbad
  simp only [cellPoint, cellCore, Nd.shape0, if_pos hi, Nd.shape1?, if_pos hj, hcv]
  rfl

theorem extract_error_of_cell {a : Arr2 V} {long : Nd V} {nd : Nd (Option V)} {fn : Bool}
    {i j : Nat} (hi : i < a.rows) (hj : j < a.cols)
    (hcell : cellPoint (.two a) long nd fn i j = .error ()) :
    extractPoints (.two a) long nd fn = .error () := by
  simp only [extractPoints, Nd.shape0, Nd.shape1?]
  rw [if_neg (by omega)]
  exact @runCells_error_of_mem _ _ (i, j) (mem_idxList.mpr ⟨hi, hj⟩) hcell

/-! ## Helper lemmas: inversion of the parse pipeline -/

theorem parseE_ok_inv {nc : NCFile} {fn : Bool} {r : PResult}
    (h : parse_nc_fileE nc fn = .ok r) :
    ∃ la lo latV lonV dv rest pts rg,
      resolveAxes nc = some (la, lo) ∧
      lookupVar nc la = some latV ∧
      lookupVar nc lo = some lonV ∧
      dataVars nc la lo = dv :: rest ∧
      extractPoints (makeGrid latV.data lonV.data).1 (makeGrid latV.data lonV.data).2
        (normalizeVar dv) fn = .ok pts ∧
      ranges4 latV.data lonV.data = .ok rg ∧
      r = ⟨mkFileInfo nc, ⟨la, lo, rg.1, rg.2⟩,
           ⟨dv.name, dv.units.getD "unknown", dv.long_name.getD dv.name⟩, pts⟩ := by
  rcases hra : resolveAxes nc with _ | ⟨la, lo⟩
  · simp only [parse_nc_fileE, hra] at h
    exact Except.noConfusion h
  rcases hlat : lookupVar nc la with _ | latV
  · simp only [parse_nc_fileE, hra, hlat] at h
    exact Except.noConfusion h
  rcases hlon : lookupVar nc lo with _ | lonV
  · simp only [parse_nc_fileE, hra, hlat, hlon] at h
    exact Except.noConfusion h
  rcases hdv : dataVars nc la lo with _ | ⟨dv, rest⟩
  · simp only [parse_nc_fileE, hra, hlat, hlon, hdv] at h
    exact Except.noConfusion h
  simp only [parse_nc_fileE, hra, hlat, hlon, hdv] at h
  rcases hex : extractPoints (makeGrid latV.data lonV.data).1 (makeGrid latV.data lonV.data).2
      (normalizeVar dv) fn with e | pts
  · rw [hex] at h
    exact Except.noConfusion h
  rw [hex] at h
  rcases hrg : ranges4 latV.data lonV.data with e | rg
  · simp only [hrg] at h
    exact Except.noConfusion h
  simp only [hrg, Except.ok.injEq] at h
  exact ⟨la, lo, latV, lonV, dv, rest, pts, rg, rfl, hlat, hlon, hdv, hex, hrg, h.symm⟩

theorem parseE_ok_intro {nc : NCFile} {fn : Bool} {la lo : String} {latV lonV dv : Var}
    {rest : List Var} {pts : List Point} {rg : (V × V) × (V × V)}
    (h1 : resolveAxes nc = some (la, lo)) (h2 : lookupVar nc la = some latV)
    (h3 : lookupVar nc lo = some lonV) (h4 : dataVars nc la lo = dv :: rest)
    (h5 : extractPoints (makeGrid latV.data lonV.data).1 (makeGrid latV.data lonV.data).2
      (normalizeVar dv) fn = .ok pts)
    (h6 : ranges4 latV.data lonV.data = .ok rg) :
    parse_nc_fileE nc fn = .ok ⟨mkFileInfo nc, ⟨la, lo, rg.1, rg.2⟩,
      ⟨dv.name, dv.units.getD "unknown", dv.long_name.getD dv.name⟩, pts⟩ := by
  simp only [parse_nc_fileE, h1, h2, h3, h4, h5, h6]

/-! ## Helper lemmas: the resolver scans are last-match-wins -/

theorem varStep_fst (acc : Option String × Option String) (v : Var) :
    (varStep acc v).1 = if varMatchesLat v then some v.name else acc.1 := by
  cases hln : v.long_name with
  | some ln =>
    by_cases hl : lnLat ln
    · simp [varStep, hln, hl, varMatchesLat]
    · by_cases ho : lnLon ln <;> simp [varStep, hln, hl, ho, varMatchesLat]
  | none =>
    by_cases hl : lowerName v.name ∈ latAliases
    · simp [varStep, hln, hl, varMatchesLat]
    · by_cases ho : lowerName v.name ∈ lonAliases <;>
        simp [varStep, hln, hl, ho, varMatchesLat]

theorem varStep_snd (acc : Option String × Option String) (v : Var) :
    (varStep acc v).2 = if varMatchesLon v then some v.name else acc.2 := by
  cases hln : v.long_name with
  | some ln =>
    by_cases hl : lnLat ln
    · simp [varStep, hln, hl, varMatchesLon]
    · by_cases ho : lnLon ln <;> simp [varStep, hln, hl, ho, varMatchesLon]
  | none =>
    by_cases hl : lowerName v.name ∈ latAliases
    · simp [varStep, hln, hl, varMatchesLon]
    · by_cases ho : lowerName v.name ∈ lonAliases <;>
        simp [varStep, hln, hl, ho, varMatchesLon]

theorem varPass_fst (vs : List Var) (acc : Option String × Option String) :
    (varPass vs acc).1 = ((vs.reverse.find? varMatchesLat).map Var.name).or acc.1 := by
  induction vs generalizing acc with
  | nil => simp [varPass]
  | cons v vs ih =>
    have h1 : varPass (v :: vs) acc = varPass vs (varStep acc v) := rfl
    rw [h1, ih, varStep_fst]
    rcases hf : vs.reverse.find? varMatchesLat with _ | w
    · by_cases hm : varMatchesLat v <;>
        simp [List.reverse_cons, List.find?_append, hf, hm, Option.or]
    · simp [List.reverse_cons, List.find?_append, hf, Option.or]

theorem varPass_snd (vs : List Var) (acc : Option String × Option String) :
    (varPass vs acc).2 = ((vs.reverse.find? varMatchesLon).map Var.name).or acc.2 := by
  induction vs generalizing acc with
  | nil => simp [varPass]
  | cons v vs ih =>
    have h1 : varPass (v :: vs) acc = varPass vs (varStep acc v) := rfl
    rw [h1, ih, varStep_snd]
    rcases hf : vs.reverse.find? varMatchesLon with _ | w
    · by_cases hm : varMatchesLon v <;>
        simp [List.reverse_cons, List.find?_append, hf, hm, Option.or]
    · simp [List.reverse_cons, List.find?_append, hf, Option.or]

theorem dimStep_fst (acc : Option String × Option String) (d : String) :
    (dimStep acc d).1 = if dimMatchesLat d then some d else acc.1 := by
  by_cases hl : lowerName d ∈ latAliases
  · simp [dimStep, hl, dimMatchesLat]
  · by_cases ho : lowerName d ∈ lonAliases <;> simp [dimStep, hl, ho, dimMatchesLat]

theorem dimStep_snd (acc : Option String × Option String) (d : String) :
    (dimStep acc d).2 = if dimMatchesLon d then some d else acc.2 := by
  by_cases hl : lowerName d ∈ latAliases
  · simp [dimStep, hl, dimMatchesLon]
  · by_cases ho : lowerName d ∈ lonAliases <;> simp [dimStep, hl, ho, dimMatchesLon]

theorem dimPass_fst (ds : List String) (acc : Option String × Option String) :
    (dimPass ds acc).1 = (ds.reverse.find? dimMatchesLat).or acc.1 := by
  induction ds generalizing acc with
  | nil => simp [dimPass]
  | cons d ds ih =>
    have h1 : dimPass (d :: ds) acc = dimPass ds (dimStep acc d) := rfl
    rw [h1, ih, dimStep_fst]
    rcases hf : ds.reverse.find? dimMatchesLat with _ | w
    · by_cases hm : dimMatchesLat d <;>
        simp [List.reverse_cons, List.find?_append, hf, hm, Option.or]
    · simp [List.reverse_cons, List.find?_append, hf, Option.or]

theorem dimPass_snd (ds : List String) (acc : Option String × Option String) :
    (dimPass ds acc).2 = (ds.reverse.find? dimMatchesLon).or acc.2 := by
  induction ds generalizing acc with
  | nil => simp [dimPass]
  | cons d ds ih =>
    have h1 : dimPass (d :: ds) acc = dimPass ds (dimStep acc d) := rfl
    rw [h1, ih, dimStep_snd]
    rcases hf : ds.reverse.find? dimMatchesLon with _ | w
    · by_cases hm : dimMatchesLon d <;>
        simp [List.reverse_cons, List.find?_append, hf, hm, Option.or]
    · simp [List.reverse_cons, List.find?_append, hf, Option.or]

theorem cellPoint_ok_some_inv {latg long : Nd V} {d : Arr2 (Option V)} {fn : Bool}
    {i j : Nat} {p : Point} (h : cellPoint latg long (.two d) fn i j = .ok (some p)) :
    i < d.rows ∧ j < d.cols ∧ cellVals latg long (.two d) d.cols i j = .ok p := by
  rcases hc : cellCore latg long (.two d) i j with e | y
  · simp only [cellPoint, hc, Except.map] at h
    exact Except.noConfusion h
  · simp only [cellPoint, hc, Except.map, Except.ok.injEq] at h
    rcases y with _ | p0
    · simp at h
    · by_cases hk : (fn && isAbsentOrNan p0.value) = true
      · simp [hk] at h
      · simp [hk] at h
        subst h
        by_cases h1 : d.rows > i
        · by_cases h2 : d.cols > j
          · simp only [cellCore, Nd.shape0, if_pos h1, Nd.shape1?, if_pos h2] at hc
            rcases hv : cellVals latg long (.two d) d.cols i j with e | p1
            · rw [hv] at hc
              simp [Except.map] at hc
            · rw [hv] at hc
              simp only [Except.map, Except.ok.injEq, Option.some.injEq] at hc
              exact ⟨h1, h2, by rw [hc]⟩
          · simp only [cellCore, Nd.shape0, if_pos h1, Nd.shape1?, if_neg h2,
              Except.ok.injEq] at hc
            simp at hc
        · simp only [cellCore, Nd.shape0, if_neg h1, Except.ok.injEq] at hc
          simp at hc

/-- Claim C1: Point Extractor transposed read — for every emitted grid cell
`(i, j)`, with the normalized measurement array of shape `M×N`, the emitted
value is the measurement at position `(j, i)` whenever `j < M` and `i < N`,
and the measurement at position `(i, j)` otherwise. -/
theorem C1_transposed_read (latg long : Nd V) (d : Arr2 (Option V)) (fn : Bool)
    (i j : Nat) (p : Point)
    (h : cellPoint latg long (.two d) fn i j = .ok (some p)) :
    p.value = (if j < d.rows ∧ i < d.cols then d.get j i else d.get i j) := by
  rcases cellPoint_ok_some_inv h with ⟨h1, h2, hv⟩
  exact cellVals_value h1 h2 hv

/-- Witness for C1: grid cell `(0, 1)` on a 2×2 measurement is emitted with
the value of measurement cell `(1, 0)`. -/
theorem C1_transposed_read_witness :
    cellPoint w1LatG w1LonG (.two w1D) false 0 1 = .ok (some w1P) ∧
      w1P.value = (if 1 < w1D.rows ∧ 0 < w1D.cols then w1D.get 1 0 else w1D.get 0 1) :=
  ⟨by decide, C1_transposed_read w1LatG w1LonG w1D false 0 1 w1P (by decide)⟩

/-- Claim C6: Grid Materializer outer-product expansion — for 1-D axes `lats`
(length `R`) and `lons` (length `C`), the produced grids satisfy
`latGrid[i][j] = lats[i]` and `lonGrid[i][j] = lons[j]` for all in-range
`i, j`, with both grids of shape `R×C`; `makeGrid` uses exactly this
expansion for two 1-D axes. -/
theorem C6_outer_product (lats lons : List V) (i j : Nat)
    (hi : i < lats.length) (hj : j < lons.length) :
    (meshgrid lons lats).2.rows = lats.length ∧
    (meshgrid lons lats).2.cols = lons.length ∧
    (meshgrid lons lats).2.get i j = lats[i] ∧
    (meshgrid lons lats).1.get i j = lons[j] ∧
    makeGrid (.one lats) (.one lons) = (.two (meshgrid lons lats).2, .two (meshgrid lons lats).1) := by
  refine ⟨rfl, rfl, ?_, ?_, rfl⟩
  · simp only [meshgrid]
    exact List.getD_eq_getElem lats V.nan hi
  · simp only [meshgrid]
    exact List.getD_eq_getElem lons V.nan hj

/-- Witness for C6: the specification's example `lats = [10, 20]`,
`lons = [100, 101, 102]` at cell `(1, 2)`. -/
theorem C6_outer_product_witness :
    ((meshgrid [V.num 100, V.num 101, V.num 102] [V.num 10, V.num 20]).2.rows = 2 ∧
      (meshgrid [V.num 100, V.num 101, V.num 102] [V.num 10, V.num 20]).2.get 1 2 = V.num 20 ∧
      (meshgrid [V.num 100, V.num 101, V.num 102] [V.num 10, V.num 20]).1.get 1 2 = V.num 102) := by
  rcases C6_outer_product [V.num 10, V.num 20] [V.num 100, V.num 101, V.num 102] 1 2
    (by decide) (by decide) with ⟨h1, h2, h3, h4, h5⟩
  exact ⟨h1, by simpa using h3, by simpa using h4⟩

/-- Claim C7: Missing-value normalization — the declared fill value is
checked before the declared missing value; with neither declared the mask is
empty; every cell equal to the selected sentinel becomes the absent marker in
a working copy of identical shape, and every other cell keeps its value.
(The raw array is untouched: `normalizeVar` builds a new array from
`v.data`.) -/
theorem C7_normalizer (v : Var) (d : Arr2 V) (i j : Nat) (hd : v.data = .two d) :
    (∀ f, v.fillValue = some f → sentinelOf v = some f) ∧
    (v.fillValue = none → sentinelOf v = v.missingValue) ∧
    (∃ d2 : Arr2 (Option V), normalizeVar v = .two d2 ∧ d2.rows = d.rows ∧ d2.cols = d.cols ∧
      (∀ s, sentinelOf v = some s → veq (d.get i j) s = true → d2.get i j = none) ∧
      (∀ s, sentinelOf v = some s → veq (d.get i j) s = false → d2.get i j = some (d.get i j)) ∧
      (sentinelOf v = none → d2.get i j = some (d.get i j))) := by
  refine ⟨?_, ?_, ?_⟩
  · intro f hf
    simp [sentinelOf, hf, Option.or]
  · intro hf
    simp [sentinelOf, hf, Option.or]
  · refine ⟨⟨d.rows, d.cols, fun i j => normCell (sentinelOf v) (d.get i j)⟩, ?_, rfl, rfl,
      ?_, ?_, ?_⟩
    · simp [normalizeVar, hd, Nd.map]
    · intro s hs hv
      simp [normCell, hs, hv]
    · intro s hs hv
      simp [normCell, hs, hv]
    · intro hs
      simp [normCell, hs]

/-- Witness for C7: a variable declaring both `_FillValue = 99` and
`missing_value = 7` masks exactly the cells equal to 99. -/
theorem C7_normalizer_witness :
    (sentinelOf w7v = some (.num 99) ∧
      (∃ d2 : Arr2 (Option V), normalizeVar w7v = .two d2 ∧ d2.rows = w7d.rows ∧
        d2.cols = w7d.cols ∧
        (∀ s, sentinelOf w7v = some s → veq (w7d.get 0 0) s = true → d2.get 0 0 = none) ∧
        (∀ s, sentinelOf w7v = some s → veq (w7d.get 0 0) s = false →
          d2.get 0 0 = some (w7d.get 0 0)) ∧
        (sentinelOf w7v = none → d2.get 0 0 = some (w7d.get 0 0)))) := by
  rcases C7_normalizer w7v w7d 0 0 rfl with ⟨h1, h2, h3⟩
  exact ⟨h1 (.num 99) rfl, h3⟩

theorem parse_ok_of_interface {nc : NCFile} {fn : Bool} {r : PResult}
    (h : parse_nc_file nc fn = some r) : parse_nc_fileE nc fn = .ok r := by
  rcases hp : parse_nc_fileE nc fn with e | r2
  · rw [parse_nc_file, hp] at h
    exact Option.noConfusion h
  · rw [parse_nc_file, hp] at h
    simp only [Except.toOption, Option.some.injEq] at h
    rw [h]

/-- Claim C2, counterexample: a file with a 2×2 coordinate grid but a 1×1
measurement array yields exactly one point under `IncludeAll`, not
`R×C = 4`. -/
theorem C2_grid_length_cex :
    (parse_nc_file c2nc false).map (fun r => r.data_points.length) = some 1 ∧
      (makeGrid c2Lat.data c2Lon.data).1.shape0 = 2 ∧
      (makeGrid c2Lat.data c2Lon.data).1.shape1? = .ok 2 := by
  refine ⟨by decide, by decide, by decide⟩

/-- Claim C2 as amended: on every successful `IncludeAll` extraction the
number of points is `min(R, M) × min(C, N)` — the grid cells that pass the
measurement-bounds guard — which equals `R×C` exactly when the measurement's
first two dimensions cover the grid. -/
theorem C2_include_all_length (nc : NCFile) (r : PResult)
    (h : parse_nc_file nc false = some r) : r.data_points.length = c2len nc := by
  have he := parse_ok_of_interface h
  rcases parseE_ok_inv he with
    ⟨la, lo, latV, lonV, dv, rest, pts, rg, hra, hlat, hlon, hdv, hex, hrg, hr⟩
  have hst : stagesOf nc = some (latV, lonV, dv) := by
    simp only [stagesOf, hra, hlat, hlon, hdv]
  subst hr
  simp only [c2len, hst]
  exact extract_ok_length hex

/-- Witness for C2: the end-to-end example file has a 2×2 grid fully covered
by its 2×2 measurement, and its `IncludeAll` run yields
`c2len w2nc = min 2 2 * min 2 2 = 4` points. -/
theorem C2_include_all_length_witness :
    parse_nc_file w2nc false = some w2res ∧ w2res.data_points.length = c2len w2nc :=
  ⟨by decide, C2_include_all_length w2nc w2res (by decide)⟩

/-- Claim C3, counterexample: on a file whose only measurement cell is NaN,
the `IncludeAll` run keeps the NaN point (it is not absent-valued), yet the
`ExcludeAbsent` run drops it — so `ExcludeAbsent` is not `IncludeAll` with
only the absent-valued points removed. -/
theorem C3_filter_cex :
    (parse_nc_file c3nc false).map
        (fun r => r.data_points.filter (fun p => decide (p.value ≠ none))) =
      some [⟨.num 1, .num 5, some .nan⟩] ∧
    (parse_nc_file c3nc true).map (fun r => r.data_points) = some [] := by
  refine ⟨by decide, by decide⟩

/-- Claim C3 as amended: the `ExcludeAbsent` result equals the `IncludeAll`
result with the absent-valued AND the NaN-valued points removed (relative
order preserved); in particular it is a subsequence of the `IncludeAll`
result. -/
theorem C3_exclude_filter (nc : NCFile) (r : PResult)
    (h : parse_nc_file nc false = some r) :
    parse_nc_file nc true = some { r with data_points := r.data_points.filter keepB } ∧
      (r.data_points.filter keepB).Sublist r.data_points := by
  have he := parse_ok_of_interface h
  rcases parseE_ok_inv he with
    ⟨la, lo, latV, lonV, dv, rest, pts, rg, hra, hlat, hlon, hdv, hex, hrg, hr⟩
  have hex2 := extract_filter hex
  have h2 := parseE_ok_intro hra hlat hlon hdv hex2 hrg
  subst hr
  exact ⟨by rw [parse_nc_file, h2]; rfl, List.filter_sublist _⟩

/-- Witness for C3: on the file with measurement `[[99, NaN], [3, 4]]` and
fill 99, the filtered run keeps exactly the two numeric points. -/
theorem C3_exclude_filter_witness :
    parse_nc_file w3nc false = some w3res ∧
      parse_nc_file w3nc true = some { w3res with data_points := w3res.data_points.filter keepB } ∧
      w3res.data_points.filter keepB =
        [⟨.num 1, .num 6, some (.num 3)⟩, ⟨.num 2, .num 6, some (.num 4)⟩] :=
  ⟨by decide, (C3_exclude_filter w3nc w3res (by decide)).1, by decide⟩

/-- Claim C8: measurement selection — the candidates are exactly the catalog
variables that are not a resolved axis and have rank at least 2; with no
candidate the parse fails on the `NoMeasurementVariable` path; otherwise the
first candidate in catalog order is the measurement the result reports. -/
theorem C8_measurement_selection (nc : NCFile) (fn : Bool) (la lo : String)
    (latV lonV : Var) (h1 : resolveAxes nc = some (la, lo))
    (h2 : lookupVar nc la = some latV) (h3 : lookupVar nc lo = some lonV) :
    (∀ v, v ∈ dataVars nc la lo ↔
      v ∈ nc.vars ∧ v.name ≠ la ∧ v.name ≠ lo ∧ 2 ≤ v.dims.length) ∧
    (dataVars nc la lo = [] → parse_nc_fileE nc fn = .error .noDataVar) ∧
    (∀ r, parse_nc_fileE nc fn = .ok r →
      (dataVars nc la lo).head?.map Var.name = some r.data_variable.name) := by
  refine ⟨?_, ?_, ?_⟩
  · intro v
    simp [dataVars, List.mem_filter]
  · intro hdv
    simp only [parse_nc_fileE, h1, h2, h3, hdv]
  · intro r hok
    rcases parseE_ok_inv hok with
      ⟨la2, lo2, latV2, lonV2, dv, rest, pts, rg, hra2, hlat2, hlon2, hdv2, hex2, hrg2, hr2⟩
    have hp := Option.some.inj (h1.symm.trans hra2)
    rw [Prod.mk.injEq] at hp
    obtain ⟨rfl, rfl⟩ := hp
    rw [hdv2]
    subst hr2
    simp

/-- Witness for C8: in `w8nc` the candidates are `temp` and `salt`, and the
result's measurement is the first candidate `temp`. -/
theorem C8_measurement_selection_witness :
    (dataVars w8nc "lat" "lon").head?.map Var.name = some w8res.data_variable.name ∧
      parse_nc_fileE w8nc false = .ok w8res ∧ w8res.data_variable.name = "temp" :=
  ⟨(C8_measurement_selection w8nc false "lat" "lon"
      (⟨"lat", ["lat"], none, none, none, none, .one [.num 1]⟩)
      (⟨"lon", ["lon"], none, none, none, none, .one [.num 5]⟩)
      (by decide) rfl rfl).2.2 w8res (by decide),
   by decide, by decide⟩

/-- Claim C10: the single-file extraction interface is total — for every file
and either policy it returns the internal result when every stage succeeds
and `none` for every internal failure path (the two explicit warning paths
and the blanket exception handler); no exception escapes. -/
theorem C10_interface_total (nc : NCFile) (fn : Bool) :
    (parse_nc_file nc fn =
      match parse_nc_fileE nc fn with
      | .ok r => some r
      | .error _ => none) ∧
    ((∃ r, parse_nc_file nc fn = some r) ∨ parse_nc_file nc fn = none) := by
  constructor
  · rcases hp : parse_nc_fileE nc fn with e | r <;>
      simp [parse_nc_file, hp, Except.toOption]
  · rcases hp : parse_nc_file nc fn with _ | r
    · exact Or.inr rfl
    · exact Or.inl ⟨r, rfl⟩

/-- Claim C4, counterexample: a mixed-dimensionality file (2-D latitude,
1-D longitude) whose measurement has an empty leading dimension parses
successfully — returning a result with an empty point list — instead of
failing with `IncompatibleAxisShapes`. -/
theorem C4_mixed_axes_cex :
    (parse_nc_file c4nc false).isSome = true ∧
      (parse_nc_file c4nc false).map (fun r => r.data_points) = some [] ∧
      c4Lat.data.ndim = 2 ∧ c4Lon.data.ndim = 1 :=
  ⟨by decide, by decide, rfl, rfl⟩

/-- Claim C4 as amended: mixed-dimensionality axes are not detected by a
dedicated check — the arrays are used as the grid unchanged.  With a 1-D
(non-empty) latitude and a 2-D longitude the point loop raises on
`lat_grid.shape[1]` and the parse fails on the generic exception path (there
is no distinguished `IncompatibleAxisShapes` error); with a 2-D latitude and
1-D longitude the run can even succeed with an empty point list when no grid
cell passes the measurement-bounds guard. -/
theorem C4_mixed_axes (nc : NCFile) (fn : Bool) (la lo : String) (latV lonV : Var)
    (xs : List V) (b : Arr2 V)
    (h1 : resolveAxes nc = some (la, lo)) (h2 : lookupVar nc la = some latV)
    (h3 : lookupVar nc lo = some lonV) (h4 : dataVars nc la lo ≠ [])
    (h5 : latV.data = .one xs) (h6 : xs ≠ []) (h7 : lonV.data = .two b) :
    parse_nc_fileE nc fn = .error .exn := by
  rcases hdv : dataVars nc la lo with _ | ⟨dv, rest⟩
  · exact absurd hdv h4
  · simp only [parse_nc_fileE, h1, h2, h3, hdv, h5, h7]
    have hex : extractPoints (makeGrid (Nd.one xs) (Nd.two b)).1
        (makeGrid (Nd.one xs) (Nd.two b)).2 (normalizeVar dv) fn = .error () := by
      have hfst : (makeGrid (Nd.one xs) (Nd.two b)).1 = Nd.one xs := rfl
      rw [hfst]
      exact extract_one_error xs _ (normalizeVar dv) fn h6
    rw [hex]

/-- Witness for C4: a concrete mixed-dimensionality file (1-D non-empty
latitude, 2-D longitude) whose parse fails on the generic exception path. -/
theorem C4_mixed_axes_witness : parse_nc_fileE w4nc false = .error .exn :=
  C4_mixed_axes w4nc false "lat" "lon"
    ⟨"lat", ["lat"], none, none, none, none, .one [.num 10]⟩
    ⟨"lon", ["a", "b"], none, none, none, none, .two ⟨1, 1, fun _ _ => .num 5⟩⟩
    [.num 10] ⟨1, 1, fun _ _ => .num 5⟩
    (by decide) rfl rfl (by intro h; exact List.noConfusion h) rfl (by decide) rfl

/-- Claim C5, counterexample: in a catalog where variable `A` carries
`long_name = "Latitude of grid cell"` and a LATER variable is named plainly
`y`, the resolver picks `y`, not `A` — the long-name pass does not take
priority and the first long-name match is not kept. -/
theorem C5_resolution_cex :
    resolveAxes c5nc = some ("y", "lon") ∧ resolveAxes c5nc ≠ some ("A", "lon") :=
  ⟨by decide, by decide⟩

/-- Claim C5 as amended: axis resolution is a single interleaved scan of the
catalog — a variable with a declared `long_name` is classified by keyword
containment (latitude first), any other variable by name alias — and for
each axis the LAST matching variable wins (`varPass` computes the last match
of the reversed catalog); the dimension fallback scan likewise takes the
last matching dimension name for each axis. -/
theorem C5_resolution_order :
    (∀ (vs : List Var) (acc : Option String × Option String),
      (varPass vs acc).1 = ((vs.reverse.find? varMatchesLat).map Var.name).or acc.1 ∧
      (varPass vs acc).2 = ((vs.reverse.find? varMatchesLon).map Var.name).or acc.2) ∧
    (∀ (ds : List String) (acc : Option String × Option String),
      (dimPass ds acc).1 = (ds.reverse.find? dimMatchesLat).or acc.1 ∧
      (dimPass ds acc).2 = (ds.reverse.find? dimMatchesLon).or acc.2) :=
  ⟨fun vs acc => ⟨varPass_fst vs acc, varPass_snd vs acc⟩,
   fun ds acc => ⟨dimPass_fst ds acc, dimPass_snd ds acc⟩⟩

/-- Claim C9, counterexample: a file whose measurement holds one non-numeric
cell and one good numeric cell parses to `None` under both policies — the
good point is not produced and the conversion failure is not treated as
absent. -/
theorem C9_conversion_cex :
    parse_nc_file c9nc false = none ∧ parse_nc_file c9nc true = none :=
  ⟨by decide, by decide⟩

/-- Claim C9 as amended: a numeric-conversion failure on any in-bounds
measurement cell raises out of the cell loop — the cell's processing errors
and the whole extraction stage errors — so the file's extraction is aborted
(surfacing as a `None` parse) rather than the cell being treated as
absent. -/
theorem C9_conversion_aborts (latg long : Nd V) (d : Arr2 (Option V)) (fn : Bool)
    (i j : Nat) (hi : i < d.rows) (hj : j < d.cols)
    (hbad : (if j < d.rows ∧ i < d.cols then d.get j i else d.get i j) = some V.bad) :
    cellPoint latg long (.two d) fn i j = .error () ∧
    (∀ a : Arr2 V, latg = .two a → i < a.rows → j < a.cols →
      extractPoints latg long (.two d) fn = .error ()) := by
  refine ⟨cellPoint_bad fn hi hj hbad, ?_⟩
  rintro a rfl hia hja
  exact extract_error_of_cell hia hja (cellPoint_bad fn hi hj hbad)

/-- Witness for C9: a 1×1 measurement holding a non-numeric cell makes the
cell processing and the whole extraction error. -/
theorem C9_conversion_aborts_witness :
    cellPoint (.two ⟨1, 1, fun _ _ => V.num 1⟩) (.two ⟨1, 1, fun _ _ => V.num 2⟩)
        (.two w9d) false 0 0 = .error () ∧
      extractPoints (.two ⟨1, 1, fun _ _ => V.num 1⟩) (.two ⟨1, 1, fun _ _ => V.num 2⟩)
        (.two w9d) false = .error () := by
  rcases C9_conversion_aborts (.two ⟨1, 1, fun _ _ => V.num 1⟩)
      (.two ⟨1, 1, fun _ _ => V.num 2⟩) w9d false 0 0 (by decide) (by decide) (by decide) with
    ⟨ha, hb⟩
  exact ⟨ha, hb ⟨1, 1, fun _ _ => V.num 1⟩ rfl (by decide) (by decide)⟩

end NC
